import Mathlib

/-!
Shallow embedding of the minitree cache / materialization / merge subsystem of
the hax repository (src/hax/minitrees.py), together with proofs settling the
frozen claims about it.

Modelling conventions:
* A pandas row produced by a treemaker's `extract_data` (a Python dict of
  branch name to value) is a `Row`, an association list from column name to an
  integer value; a `DataFrame` is the list of its rows in order.  Only row
  order, row count and column names are observed by the properties below, so
  cell values are modelled as `Int`.
* The on-disk minitree storage (`hax.config['minitree_paths']` plus the files
  inside those folders) is a `Store`: an ordered association list from folder
  name to the files in that folder; a file carries its json metadata record
  and its table payload.
* Python exceptions become the `HaxError` type; a raising call returns
  `Except.error`.  Stateful functions take and return the `Store` explicitly;
  on an exception the store is returned unchanged (writes in the source happen
  only after the points that can raise, except where noted).
* `distutils.version.LooseVersion` comparison is modelled for dotted-numeric
  version strings (the only form this repository uses, e.g. "0.1", "0.2.0",
  "6.0.1"): split on dots, parse numeric components, compare like Python list
  comparison (lexicographic, shorter prefix is smaller).
* Logging calls (`log.debug`, `log.warning`) have no effect on behaviour and
  are not modelled.
-/

/-- One output row of a treemaker's `extract_data`: a dict from branch
(column) name to a scalar value. -/
abbrev Row := List (String × Int)

/-- A pandas DataFrame, observed as its list of rows in order. -/
abbrev DataFrame := List Row

/-- Numeric value of a decimal digit character, if it is one. -/
def digitVal (c : Char) : Option Nat :=
  if 48 ≤ c.toNat ∧ c.toNat ≤ 57 then some (c.toNat - 48) else none

/-- Parse a run of decimal digits, accumulating left to right. -/
def parseComponentAux : List Char → Nat → Option Nat
  | [], acc => some acc
  | c :: rest, acc =>
    match digitVal c with
    | some d => parseComponentAux rest (acc * 10 + d)
    | none => none

/-- Parse one dot-separated component as a number (none when empty or
non-numeric). -/
def parseComponent : List Char → Option Nat
  | [] => none
  | c :: rest => parseComponentAux (c :: rest) 0

/-- Split a character list on dots. -/
def splitDots : List Char → List (List Char)
  | [] => [[]]
  | c :: rest =>
    if c = '.' then [] :: splitDots rest
    else
      match splitDots rest with
      | [] => [[c]]
      | comp :: comps => (c :: comp) :: comps

/-- Parse a dotted-numeric version string into its numeric components,
as `distutils.version.LooseVersion` does for such strings:
"0.2.0" becomes [0, 2, 0]. -/
def parseVersion (s : String) : List Nat :=
  (splitDots s.data).filterMap parseComponent

/-- Python list comparison on version component lists: lexicographic,
a strict prefix is smaller. -/
def listLtNat : List Nat → List Nat → Bool
  | [], [] => false
  | [], _ :: _ => true
  | _ :: _, [] => false
  | a :: as, b :: bs => if a < b then true else if b < a then false else listLtNat as bs

/-- Model of `LooseVersion(a) < LooseVersion(b)` for the dotted-numeric
version strings used throughout the repository. -/
def looseLT (a b : String) : Bool :=
  listLtNat (parseVersion a) (parseVersion b)

/-- The `hax.config['pax_version_policy']` setting: the strings "latest" and
"loose" select the first two modes; any other string v is an exact-version
requirement (the final `else` branch of `_check_minitree_path`). -/
inductive VersionPolicy
  | latest
  | loose
  | exact (v : String)
deriving DecidableEq

/-- The json metadata record stored inside a minitree file
(`metadata_dict` in `get`).  `pax_version` is optional because
`_check_minitree_path` explicitly tests `'pax_version' not in
minitree_metadata`; `version` is always present in files this code writes. -/
structure Metadata where
  version : String
  pax_version : Option String
  created_by : String
  documentation : Option String
  timestamp : String
deriving DecidableEq

/-- A minitree file on disk: its metadata record plus its table payload. -/
structure StoredFile where
  md : Metadata
  table : DataFrame
deriving DecidableEq

/-- The minitree storage: the ordered folders of
`hax.config['minitree_paths']` that exist on disk, each with the minitree
files it contains (filename to file). -/
abbrev Store := List (String × List (String × StoredFile))

/-- The ambient hax configuration and environment consumed by `get`:
the version policy and the ordered minitree search paths, plus the ambient
values `get_user_id()` and `datetime.now()` that go into the metadata record
(write-only provenance, never read by any check). -/
structure Config where
  pax_version_policy : VersionPolicy
  minitree_paths : List String
  user_id : String
  now : String

/-- The external world attached to one run (dataset): the raw pax root file
as its event list (`none` models `FileNotFoundError` from
`loop_over_dataset`), and the raw file's own metadata
(`hax.paxroot.get_metadata(run_name)['file_builder_version']`; `none` models
`FileNotFoundError` from `get_metadata`). -/
structure Run (Event : Type) where
  rawData : Option (List Event)
  paxMeta : Option String

/-- A treemaker class: its `__version__` attribute (`none` when the author
forgot it, checked by `get`), its docstring, its flush buffer size
(class attribute `cache_size = 1000`) and its per-event extraction routine.
The branch-selection attributes only steer which event fields the external
reader loads and are not modelled. -/
structure TreeMaker (Event : Type) where
  version : Option String
  doc : Option String := none
  cache_size : Nat := 1000
  extract_data : Event → Row

/-- The exceptions the modelled code can raise. -/
inductive HaxError
  | fileNotFound            -- FileNotFoundError
  | keyError (key : String) -- KeyError (dict lookup of a missing key)
  | unknownTreemaker        -- ValueError from get_treemaker_name_and_class
  | attributeError          -- AttributeError: treemaker lacks __version__
  | indexError              -- IndexError: minitree_paths is empty
  | noEventsError           -- RuntimeError "Not a single event was extracted
                            --   from dataset ...!"  (the spec's EmptyResultError)
  | concatNoObjects         -- ValueError from pd.concat of an empty list
  | noDataError             -- RuntimeError "No data was extracted? What's
                            --   going on??"  (the spec's NoDataError)
deriving DecidableEq

/-- Lookup of a file by name inside one folder's listing. -/
def fileLookup : List (String × StoredFile) → String → Option StoredFile
  | [], _ => none
  | (n, sf) :: rest, fn => if n = fn then some sf else fileLookup rest fn

/-- Lookup of a folder by name inside the store. -/
def storeLookup : Store → String → Option (List (String × StoredFile))
  | [], _ => none
  | (d, files) :: rest, f => if d = f then some files else storeLookup rest f

/-- Overwrite-or-insert a file in a folder listing. -/
def fileSet (files : List (String × StoredFile)) (fn : String) (sf : StoredFile) :
    List (String × StoredFile) :=
  (fn, sf) :: files.filter (fun e => e.1 ≠ fn)

/-- Write a file into a folder of the store, creating the folder when absent
(`os.makedirs` followed by the root-file write in `get`). -/
def storeWrite : Store → String → String → StoredFile → Store
  | [], d, fn, sf => [(d, [(fn, sf)])]
  | (d', files) :: rest, d, fn, sf =>
    if d' = d then (d', fileSet files fn sf) :: rest
    else (d', files) :: storeWrite rest d fn sf

/-- Folder lookup followed by file lookup: whether the file exists in that
folder (`os.path.exists(os.path.join(folder, filename))`). -/
def storeFileLookup (store : Store) (d fn : String) : Option StoredFile :=
  match storeLookup store d with
  | some files => fileLookup files fn
  | none => none

/-- Modelled from the spec: `hax.utils.find_file_in_folders` is not under
src/.  Per the spec's CacheIndex, reads try the configured locations in
order and the first folder containing a file of the requested name wins;
when no folder has it the helper raises FileNotFoundError, which
`_check_minitree_path` catches (modelled as `none`). -/
def find_file_in_folders (fn : String) : List String → Store → Option (String × StoredFile)
  | [], _ => none
  | d :: rest, store =>
    match storeFileLookup store d fn with
    | some sf => some (d, sf)
    | none => find_file_in_folders fn rest store

/-- Path of a file inside a folder (`os.path.join`). -/
def joinPath (folder fn : String) : String := folder ++ "/" ++ fn

/-- The minitree filename `"%s_%s.root" % (run_name, treemaker_name)`. -/
def minitreeFilename (runName tmName : String) : String :=
  runName ++ "_" ++ tmName ++ ".root"

namespace TreeMaker

variable {Event : Type}

/-- The mutable per-materialization state of a TreeMaker instance: the
grown table (`self.data`, absent until the first flush) and the row buffer
(`self.cache`). -/
structure TMState where
  data : Option DataFrame
  cache : List Row
deriving DecidableEq

/-- Method `TreeMaker.check_cache`: flush the buffer into the grown table
when it is non-empty and has reached `cache_size`, or unconditionally
(when non-empty) at end-of-stream (`force_empty`). -/
def check_cache (cache_size : Nat) (st : TMState) (force_empty : Bool) : TMState :=
  if st.cache.length = 0 ∨ (st.cache.length < cache_size ∧ force_empty = false) then st
  else { data := some (st.data.getD [] ++ st.cache), cache := [] }

/-- Method `TreeMaker.process_event`: append the extracted row to the buffer
and give `check_cache` a chance to flush. -/
def process_event (tm : TreeMaker Event) (st : TMState) (e : Event) : TMState :=
  check_cache tm.cache_size { st with cache := st.cache ++ [tm.extract_data e] } false

/-- Method `TreeMaker.get_data`: drive the event stream through
`process_event`, force a final flush, and fail with the RuntimeError
"Not a single event was extracted from dataset ...!" when no row was ever
produced (the run-name/run-number bookkeeping touches only external state
and is not modelled). -/
def get_data (tm : TreeMaker Event) (events : List Event) : Except HaxError DataFrame :=
  let st := events.foldl (process_event tm) ⟨none, []⟩
  let st := check_cache tm.cache_size st true
  match st.data with
  | none => .error .noEventsError
  | some d => .ok d

end TreeMaker

/-- Version checks of `_check_minitree_path` on the file the folder search
found (lines 177-214): the treemaker-version freshness check followed by the
pax-version policy check.  Under the exact policy the source reads
`minitree_metadata['pax_version']` unconditionally, so a missing key raises
KeyError there; under `latest` a missing key rejects the file. -/
def checkFoundFile (p : String) (sf : StoredFile) (tmVersion : String)
    (policy : VersionPolicy) (paxMeta : Option String) :
    Except HaxError (Option String) :=
  if looseLT sf.md.version tmVersion then .ok none
  else
    match policy with
    | .latest =>
      match paxMeta with
      | none => .ok (some p)  -- get_metadata raised: warn and keep the file
      | some fbv =>
        match sf.md.pax_version with
        | none => .ok none
        | some pv => if looseLT pv fbv then .ok none else .ok (some p)
    | .loose => .ok (some p)
    | .exact v =>
      match sf.md.pax_version with
      | none => .error (.keyError "pax_version")
      | some pv => if pv = v then .ok (some p) else .ok none

/-- Function `_check_minitree_path`: return the path of a valid cached
minitree, or `none` when it must be (re)created.  `paxMeta` stands for what
`hax.paxroot.get_metadata(run_name)` would deliver for this run. -/
def checkMinitreePath (fn : String) (paths : List String) (store : Store)
    (tmVersion : String) (policy : VersionPolicy) (paxMeta : Option String)
    (force_reload : Bool) : Except HaxError (Option String) :=
  if force_reload then .ok none
  else
    match find_file_in_folders fn paths store with
    | none => .ok none
    | some (d, sf) => checkFoundFile (joinPath d fn) sf tmVersion policy paxMeta

/-- The registry `hax.minitrees.treemakers`: treemaker name to class. -/
abbrev Registry (Event : Type) := List (String × TreeMaker Event)

/-- Name lookup part of `get_treemaker_name_and_class` (class arguments
resolve to their own name and are not modelled separately). -/
def lookupReg {Event : Type} : Registry Event → String → Option (TreeMaker Event)
  | [], _ => none
  | (n, tm) :: rest, name => if n = name then some tm else lookupReg rest name

/-- Result of `get`: the minitree path, the returned DataFrame (empty on a
cache hit, the freshly skimmed data on a rebuild), and the instrumentation
flag `extracted`, true exactly when the producer's extraction routine ran
(the cache-miss build path); `extracted` is not part of the Python return
value. -/
structure GetOut where
  path : String
  frame : DataFrame
  extracted : Bool
deriving DecidableEq

/-- The cache-miss tail of `get` (lines 238-276): run the treemaker over the
raw data, then persist the result with its metadata record into the first
configured minitree folder.  `save_pickle` and `save_arrays` only select
additional/alternative payload layouts and are not modelled; the root-file
write is governed by `save_root`. -/
def buildMinitree {Event : Type} (cfg : Config) (run : Run Event)
    (tm : TreeMaker Event) (tmVersion fn : String) (save_root : Bool)
    (store : Store) : Except HaxError GetOut × Store :=
  match run.rawData with
  | none => (.error .fileNotFound, store)
  | some events =>
    match TreeMaker.get_data tm events with
    | .error e => (.error e, store)
    | .ok df =>
      match cfg.minitree_paths with
      | [] => (.error .indexError, store)
      | d :: _ =>
        match run.paxMeta with
        | none => (.error .fileNotFound, store)
        | some fbv =>
          let md : Metadata :=
            { version := tmVersion, pax_version := some fbv,
              created_by := cfg.user_id, documentation := tm.doc,
              timestamp := cfg.now }
          if save_root then
            (.ok ⟨joinPath d fn, df, true⟩, storeWrite store d fn ⟨md, df⟩)
          else
            (.ok ⟨joinPath d fn, df, true⟩, store)

namespace Hax

/-- Function `get`: resolve-or-build one minitree.  The run-name argument is
already resolved (`runs.get_run_name`, an external database lookup, is
modelled as the identity on names per the spec's DatasetRef).  The name
lives in the `Hax` namespace (the source module is `hax.minitrees`) to avoid
clashing with the monadic `get` of the Lean library. -/
def get {Event : Type} (reg : Registry Event) (cfg : Config) (run : Run Event)
    (runName tmName : String) (force_reload save_root : Bool)
    (store : Store) : Except HaxError GetOut × Store :=
  match lookupReg reg tmName with
  | none => (.error .unknownTreemaker, store)
  | some tm =>
    match tm.version with
    | none => (.error .attributeError, store)
    | some tmVersion =>
      match checkMinitreePath (minitreeFilename runName tmName) cfg.minitree_paths
          store tmVersion cfg.pax_version_policy run.paxMeta force_reload with
      | .error e => (.error e, store)
      | .ok (some p) => (.ok ⟨p, [], false⟩, store)
      | .ok none =>
        buildMinitree cfg run tm tmVersion (minitreeFilename runName tmName)
          save_root store

end Hax

/-- Number of rows of the tallest frame in a list (the row extent of a
positional `pd.concat(..., axis=1)`). -/
def maxRows (dfs : List DataFrame) : Nat :=
  dfs.foldr (fun df m => max df.length m) 0

/-- Positional column-wise concatenation, `pd.concat(dfs, axis=1)` on
default integer indices: row i of the result merges row i of every frame
(frames shorter than the tallest contribute nothing to the missing rows). -/
def concatCols (dfs : List DataFrame) : DataFrame :=
  (List.range (maxRows dfs)).map
    (fun i => (dfs.map (fun df => df.getD i [])).flatten)

/-- Row-wise concatenation, `pd.concat(dfs)`: the rows of all frames in
order.  pandas raises ValueError ("No objects to concatenate") on an empty
list. -/
def concatRowsE (dfs : List DataFrame) : Except HaxError DataFrame :=
  if dfs.isEmpty then .error .concatNoObjects else .ok dfs.flatten

/-- Whether column k appears in the frame (a key of some row). -/
def DataFrame.hasCol (df : DataFrame) (k : String) : Bool :=
  df.any (fun r => r.any (fun p => p.1 == k))

/-- The inner loop of `load` for one treemaker: call `get` for each dataset
in order, threading the store, and collect the returned frames. -/
def loadOneTm {Event : Type} (reg : Registry Event) (cfg : Config)
    (env : String → Run Event) (tmName : String) (force_reload save_root : Bool) :
    List String → Store → Except HaxError (List DataFrame × Store)
  | [], store => .ok ([], store)
  | ds :: rest, store =>
    match Hax.get reg cfg (env ds) ds tmName force_reload save_root store with
    | (.error e, _) => .error e
    | (.ok out, store') =>
      match loadOneTm reg cfg env tmName force_reload save_root rest store' with
      | .error e => .error e
      | .ok (frames, store'') => .ok (out.frame :: frames, store'')

/-- The outer loop of `load`: for each treemaker, row-concatenate its
per-dataset frames, collecting one combined frame per treemaker. -/
def loadTms {Event : Type} (reg : Registry Event) (cfg : Config)
    (env : String → Run Event) (datasets : List String)
    (force_reload save_root : Bool) :
    List String → Store → Except HaxError (List DataFrame × Store)
  | [], store => .ok ([], store)
  | t :: ts, store =>
    match loadOneTm reg cfg env t force_reload save_root datasets store with
    | .error e => .error e
    | .ok (frames, store') =>
      match concatRowsE frames with
      | .error e => .error e
      | .ok combined =>
        match loadTms reg cfg env datasets force_reload save_root ts store' with
        | .error e => .error e
        | .ok (rest, store'') => .ok (combined :: rest, store'')

/-- Function `load`: prepend the "Fundamentals" treemaker, resolve-or-build
every (dataset, treemaker) minitree, row-concatenate across datasets and
column-concatenate across treemakers.  `env` supplies each dataset's
external raw-data world; scalar-to-list argument coercions are subsumed by
the typed list arguments.  The guard `if not len(combined_dataframes)`
raises the RuntimeError "No data was extracted? What's going on??". -/
def load {Event : Type} (reg : Registry Event) (cfg : Config)
    (env : String → Run Event) (datasets : List String) (tms : List String)
    (force_reload save_root : Bool) (store : Store) :
    Except HaxError (DataFrame × Store) :=
  match loadTms reg cfg env datasets force_reload save_root
      ("Fundamentals" :: tms) store with
  | .error e => .error e
  | .ok (combined, store') =>
    if combined.length = 0 then .error .noDataError
    else .ok (concatCols combined, store')

/-! Helper lemmas: version comparison. -/

theorem listLtNat_irrefl (l : List Nat) : listLtNat l l = false := by
  induction l with
  | nil => rfl
  | cons a as ih =>
      simp [listLtNat, ih]

theorem looseLT_irrefl (v : String) : looseLT v v = false := by
  simp [looseLT, listLtNat_irrefl]

/-! Helper lemmas: the store and the folder search. -/

theorem fileLookup_fileSet (files : List (String × StoredFile)) (fn : String)
    (sf : StoredFile) : fileLookup (fileSet files fn sf) fn = some sf := by
  simp [fileSet, fileLookup]

theorem storeLookup_write_self (store : Store) (d fn : String) (sf : StoredFile) :
    ∃ files, storeLookup (storeWrite store d fn sf) d = some files ∧
      fileLookup files fn = some sf := by
  induction store with
  | nil =>
      refine ⟨[(fn, sf)], ?_, ?_⟩ <;> simp [storeWrite, storeLookup, fileLookup]
  | cons e rest ih =>
      obtain ⟨d', files⟩ := e
      by_cases hd : d' = d
      · subst hd
        exact ⟨fileSet files fn sf,
          by simp [storeWrite, storeLookup], fileLookup_fileSet files fn sf⟩
      · obtain ⟨fs', h1, h2⟩ := ih
        exact ⟨fs', by simp [storeWrite, storeLookup, hd, h1], h2⟩

theorem storeFileLookup_write (store : Store) (d fn : String) (sf : StoredFile) :
    storeFileLookup (storeWrite store d fn sf) d fn = some sf := by
  obtain ⟨fs', h1, h2⟩ := storeLookup_write_self store d fn sf
  rw [storeFileLookup, h1]
  exact h2

theorem find_in_write (fn d : String) (rest : List String) (store : Store)
    (sf : StoredFile) :
    find_file_in_folders fn (d :: rest) (storeWrite store d fn sf) = some (d, sf) := by
  rw [find_file_in_folders, storeFileLookup_write store d fn sf]

theorem find_append_of_found (fn : String) (p₁ p₂ : List String) (store : Store)
    (r : String × StoredFile) (h : find_file_in_folders fn p₁ store = some r) :
    find_file_in_folders fn (p₁ ++ p₂) store = some r := by
  induction p₁ with
  | nil => simp [find_file_in_folders] at h
  | cons d rest ih =>
      rw [List.cons_append]
      rw [find_file_in_folders] at h ⊢
      cases hs : storeFileLookup store d fn with
      | none => rw [hs] at h; exact ih h
      | some sf => rw [hs] at h; exact h

theorem find_congr (fn : String) (p₁ : List String) (store store₂ : Store)
    (hagree : ∀ f ∈ p₁, storeLookup store₂ f = storeLookup store f) :
    find_file_in_folders fn p₁ store₂ = find_file_in_folders fn p₁ store := by
  induction p₁ with
  | nil => rfl
  | cons d rest ih =>
      have hd : storeFileLookup store₂ d fn = storeFileLookup store d fn := by
        rw [storeFileLookup, storeFileLookup, hagree d (List.mem_cons_self d rest)]
      rw [find_file_in_folders, find_file_in_folders, hd]
      cases storeFileLookup store d fn with
      | none => exact ih (fun f hf => hagree f (List.mem_cons_of_mem d hf))
      | some sf => rfl

/-! Helper lemmas: the materialization loop of TreeMaker. -/

namespace TreeMaker

variable {Event : Type}

/-- All rows a TreeMaker state holds: the flushed table plus the buffer. -/
def rowsOf (st : TMState) : List Row := st.data.getD [] ++ st.cache

theorem rowsOf_check_cache (cache_size : Nat) (st : TMState) (force_empty : Bool) :
    rowsOf (check_cache cache_size st force_empty) = rowsOf st := by
  rw [check_cache]
  split
  · rfl
  · simp [rowsOf]

theorem rowsOf_process_event (tm : TreeMaker Event) (st : TMState) (e : Event) :
    rowsOf (process_event tm st e) = rowsOf st ++ [tm.extract_data e] := by
  rw [process_event, rowsOf_check_cache]
  simp [rowsOf]

theorem rowsOf_foldl (tm : TreeMaker Event) (events : List Event) (st : TMState) :
    rowsOf (events.foldl (process_event tm) st) =
      rowsOf st ++ events.map tm.extract_data := by
  induction events generalizing st with
  | nil => simp
  | cons e rest ih =>
      rw [List.foldl_cons, ih, rowsOf_process_event]
      simp

theorem cache_empty_after_force (cache_size : Nat) (st : TMState) :
    (check_cache cache_size st true).cache = [] := by
  rw [check_cache]
  split
  · rename_i h
    rcases h with h | h
    · exact List.length_eq_zero.mp h
    · exact absurd h.2 (by simp)
  · rfl

/-- One equation capturing `get_data`: it fails exactly on an empty event
stream, and otherwise delivers every extracted row once, in event order. -/
theorem getData_eq (tm : TreeMaker Event) (events : List Event) :
    get_data tm events =
      if events.isEmpty then .error .noEventsError
      else .ok (events.map tm.extract_data) := by
  cases events with
  | nil => rfl
  | cons e rest =>
      rw [get_data]
      have hrows : rowsOf (check_cache tm.cache_size
          ((e :: rest).foldl (process_event tm) ⟨none, []⟩) true) =
          (e :: rest).map tm.extract_data := by
        rw [rowsOf_check_cache, rowsOf_foldl]
        rfl
      have hcache : (check_cache tm.cache_size
          ((e :: rest).foldl (process_event tm) ⟨none, []⟩) true).cache = [] :=
        cache_empty_after_force _ _
      rw [rowsOf, hcache, List.append_nil] at hrows
      cases hdata : (check_cache tm.cache_size
          ((e :: rest).foldl (process_event tm) ⟨none, []⟩) true).data with
      | none =>
          rw [hdata] at hrows
          simp at hrows
      | some d =>
          rw [hdata] at hrows
          simp only [Option.getD_some] at hrows
          simp [hdata, hrows]

/-- Preservation of the buffer bound by one event step. -/
theorem cache_bound_step (tm : TreeMaker Event) (hpos : 0 < tm.cache_size)
    (st : TMState) (e : Event) :
    (process_event tm st e).cache.length < tm.cache_size := by
  rw [process_event, check_cache]
  split
  · rename_i hcond
    rcases hcond with hcond | hcond
    · simpa [hcond] using hpos
    · simpa using hcond.1
  · simpa using hpos

theorem cache_bound_foldl (tm : TreeMaker Event) (hpos : 0 < tm.cache_size)
    (events : List Event) (st : TMState) (h : st.cache.length < tm.cache_size) :
    ((events.foldl (process_event tm) st)).cache.length < tm.cache_size := by
  induction events generalizing st with
  | nil => exact h
  | cons e rest ih =>
      rw [List.foldl_cons]
      exact ih _ (cache_bound_step tm hpos st e)

end TreeMaker

/-! Helper lemmas: the combiner. -/

theorem maxRows_of_all_nil (dfs : List DataFrame)
    (h : ∀ df ∈ dfs, df = []) : maxRows dfs = 0 := by
  induction dfs with
  | nil => rfl
  | cons df rest ih =>
      rw [maxRows, List.foldr_cons]
      have h1 : df = [] := h df (List.mem_cons_self df rest)
      have h2 : maxRows rest = 0 := ih (fun f hf => h f (List.mem_cons_of_mem df hf))
      rw [maxRows] at h2
      simp [h1, h2]

theorem concatCols_of_all_nil (dfs : List DataFrame)
    (h : ∀ df ∈ dfs, df = []) : concatCols dfs = [] := by
  rw [concatCols, maxRows_of_all_nil dfs h]
  rfl

theorem length_le_maxRows (dfs : List DataFrame) (df : DataFrame)
    (h : df ∈ dfs) : df.length ≤ maxRows dfs := by
  induction dfs with
  | nil => cases h
  | cons f rest ih =>
      rw [maxRows, List.foldr_cons]
      rcases List.mem_cons.mp h with h | h
      · subst h; exact le_max_left _ _
      · calc df.length ≤ maxRows rest := ih h
          _ ≤ max f.length (maxRows rest) := le_max_right _ _

theorem hasCol_concatCols (dfs : List DataFrame) (df : DataFrame) (k : String)
    (hmem : df ∈ dfs) (hcol : df.hasCol k = true) :
    (concatCols dfs).hasCol k = true := by
  rw [DataFrame.hasCol, List.any_eq_true] at hcol
  obtain ⟨r, hr, hrk⟩ := hcol
  obtain ⟨j, hj, hget⟩ := List.getElem_of_mem hr
  have hjmax : j < maxRows dfs := lt_of_lt_of_le hj (length_le_maxRows dfs df hmem)
  rw [DataFrame.hasCol, List.any_eq_true]
  refine ⟨(dfs.map (fun f => f.getD j [])).flatten, ?_, ?_⟩
  · rw [concatCols]
    exact List.mem_map.mpr ⟨j, List.mem_range.mpr hjmax, rfl⟩
  · rw [List.any_eq_true]
    rw [List.any_eq_true] at hrk
    obtain ⟨p, hp, hpk⟩ := hrk
    refine ⟨p, ?_, hpk⟩
    apply List.mem_flatten.mpr
    refine ⟨df.getD j [], List.mem_map.mpr ⟨df, hmem, rfl⟩, ?_⟩
    rw [List.getD_eq_getElem df [] hj, hget]
    exact hp

theorem loadOneTm_length {Event : Type} (reg : Registry Event) (cfg : Config)
    (env : String → Run Event) (tmName : String) (force_reload save_root : Bool)
    (datasets : List String) (store store' : Store) (frames : List DataFrame)
    (h : loadOneTm reg cfg env tmName force_reload save_root datasets store =
      .ok (frames, store')) : frames.length = datasets.length := by
  induction datasets generalizing store frames with
  | nil =>
      rw [loadOneTm] at h
      cases h
      rfl
  | cons ds rest ih =>
      rw [loadOneTm] at h
      split at h
      · exact absurd h (by simp)
      · split at h
        · exact absurd h (by simp)
        · cases h
          simp only [List.length_cons, Nat.add_right_cancel_iff]
          exact ih _ _ (by assumption)

theorem loadTms_length {Event : Type} (reg : Registry Event) (cfg : Config)
    (env : String → Run Event) (datasets : List String)
    (force_reload save_root : Bool) (tms : List String) (store store' : Store)
    (combined : List DataFrame)
    (h : loadTms reg cfg env datasets force_reload save_root tms store =
      .ok (combined, store')) : combined.length = tms.length := by
  induction tms generalizing store combined with
  | nil =>
      rw [loadTms] at h
      cases h
      rfl
  | cons t ts ih =>
      rw [loadTms] at h
      split at h
      · exact absurd h (by simp)
      · split at h
        · exact absurd h (by simp)
        · split at h
          · exact absurd h (by simp)
          · cases h
            simp only [List.length_cons, Nat.add_right_cancel_iff]
            exact ih _ _ (by assumption)

theorem loadOneTm_allHits {Event : Type} (reg : Registry Event) (cfg : Config)
    (env : String → Run Event) (tmName : String) (force_reload save_root : Bool)
    (datasets : List String) (store : Store)
    (h : ∀ ds ∈ datasets, ∃ p,
      Hax.get reg cfg (env ds) ds tmName force_reload save_root store =
        (.ok ⟨p, [], false⟩, store)) :
    loadOneTm reg cfg env tmName force_reload save_root datasets store =
      .ok (datasets.map (fun _ => ([] : DataFrame)), store) := by
  induction datasets with
  | nil => rfl
  | cons ds rest ih =>
      obtain ⟨p, hget⟩ := h ds (List.mem_cons_self ds rest)
      have hih := ih (fun d hd => h d (List.mem_cons_of_mem ds hd))
      simp [loadOneTm, hget, hih]

theorem loadTms_allHits {Event : Type} (reg : Registry Event) (cfg : Config)
    (env : String → Run Event) (force_reload save_root : Bool)
    (tlist datasets : List String) (store : Store)
    (hne : datasets ≠ [])
    (h : ∀ t ∈ tlist, ∀ ds ∈ datasets, ∃ p,
      Hax.get reg cfg (env ds) ds t force_reload save_root store =
        (.ok ⟨p, [], false⟩, store)) :
    loadTms reg cfg env datasets force_reload save_root tlist store =
      .ok (tlist.map (fun _ => ([] : DataFrame)), store) := by
  induction tlist with
  | nil => rfl
  | cons t ts ih =>
      have h1 := loadOneTm_allHits reg cfg env t force_reload save_root datasets store
        (h t (List.mem_cons_self t ts))
      have hconcat : concatRowsE (List.replicate datasets.length ([] : DataFrame)) =
          .ok [] := by
        cases datasets with
        | nil => exact absurd rfl hne
        | cons a l =>
            rw [concatRowsE]
            have hflat : ∀ n, (List.replicate n ([] : DataFrame)).flatten = [] := by
              intro n
              induction n with
              | zero => rfl
              | succ m ihm => simp [List.replicate_succ, ihm]
            simp [List.replicate_succ, hflat]
      have hih := ih (fun t' ht' => h t' (List.mem_cons_of_mem t ht'))
      simp [loadTms, h1, hconcat, hih]

/-! Helper lemmas: the resolve-or-build function. -/

theorem get_hit {Event : Type} (reg : Registry Event) (cfg : Config) (run : Run Event)
    (runName tmName : String) (force_reload save_root : Bool) (store : Store)
    (tm : TreeMaker Event) (tmv p : String)
    (hlookup : lookupReg reg tmName = some tm) (hv : tm.version = some tmv)
    (hcheck : checkMinitreePath (minitreeFilename runName tmName) cfg.minitree_paths
      store tmv cfg.pax_version_policy run.paxMeta force_reload = .ok (some p)) :
    Hax.get reg cfg run runName tmName force_reload save_root store =
      (.ok ⟨p, [], false⟩, store) := by
  unfold Hax.get
  simp only [hlookup, hv, hcheck]

theorem get_build {Event : Type} (reg : Registry Event) (cfg : Config) (run : Run Event)
    (runName tmName : String) (force_reload : Bool) (store : Store)
    (tm : TreeMaker Event) (tmv : String) (events : List Event)
    (d fbv : String) (rest : List String)
    (hlookup : lookupReg reg tmName = some tm) (hv : tm.version = some tmv)
    (hcheck : checkMinitreePath (minitreeFilename runName tmName) cfg.minitree_paths
      store tmv cfg.pax_version_policy run.paxMeta force_reload = .ok none)
    (hraw : run.rawData = some events) (hne : events ≠ [])
    (hpaths : cfg.minitree_paths = d :: rest) (hfbv : run.paxMeta = some fbv) :
    Hax.get reg cfg run runName tmName force_reload true store =
      (.ok ⟨joinPath d (minitreeFilename runName tmName),
            events.map tm.extract_data, true⟩,
       storeWrite store d (minitreeFilename runName tmName)
         ⟨⟨tmv, some fbv, cfg.user_id, tm.doc, cfg.now⟩,
          events.map tm.extract_data⟩) := by
  have hgd : TreeMaker.get_data tm events = .ok (events.map tm.extract_data) := by
    rw [TreeMaker.getData_eq]
    cases events with
    | nil => exact absurd rfl hne
    | cons e es => rfl
  unfold Hax.get
  simp only [hlookup, hv, hcheck]
  unfold buildMinitree
  simp only [hraw, hgd, hpaths, hfbv, if_true]

theorem get_ok_inv {Event : Type} (reg : Registry Event) (cfg : Config) (run : Run Event)
    (runName tmName : String) (force_reload : Bool) (store store₂ : Store)
    (out : GetOut)
    (h : Hax.get reg cfg run runName tmName force_reload true store = (.ok out, store₂)) :
    ∃ tm tmv, lookupReg reg tmName = some tm ∧ tm.version = some tmv ∧
      ((checkMinitreePath (minitreeFilename runName tmName) cfg.minitree_paths store
          tmv cfg.pax_version_policy run.paxMeta force_reload = .ok (some out.path) ∧
        out.frame = [] ∧ out.extracted = false ∧ store₂ = store) ∨
       (checkMinitreePath (minitreeFilename runName tmName) cfg.minitree_paths store
          tmv cfg.pax_version_policy run.paxMeta force_reload = .ok none ∧
        ∃ events d rest fbv,
          run.rawData = some events ∧ events ≠ [] ∧
          cfg.minitree_paths = d :: rest ∧ run.paxMeta = some fbv ∧
          out.path = joinPath d (minitreeFilename runName tmName) ∧
          out.frame = events.map tm.extract_data ∧ out.extracted = true ∧
          store₂ = storeWrite store d (minitreeFilename runName tmName)
            ⟨⟨tmv, some fbv, cfg.user_id, tm.doc, cfg.now⟩,
             events.map tm.extract_data⟩)) := by
  unfold Hax.get at h
  split at h
  · exact absurd h (by simp)
  · rename_i tm hlookup
    split at h
    · exact absurd h (by simp)
    · rename_i tmv hv
      split at h
      · exact absurd h (by simp)
      · rename_i p hcheck
        refine ⟨tm, tmv, hlookup, hv, Or.inl ?_⟩
        rw [Prod.mk.injEq] at h
        obtain ⟨h1, h2⟩ := h
        cases h1
        exact ⟨hcheck, rfl, rfl, h2.symm⟩
      · rename_i hcheck
        unfold buildMinitree at h
        split at h
        · exact absurd h (by simp)
        · rename_i events hraw
          split at h
          · exact absurd h (by simp)
          · rename_i df hgd
            split at h
            · exact absurd h (by simp)
            · rename_i d rest hpaths
              split at h
              · exact absurd h (by simp)
              · rename_i fbv hfbv
                rw [if_pos rfl] at h
                rw [Prod.mk.injEq] at h
                obtain ⟨h1, h2⟩ := h
                cases h1
                have hdf : df = events.map tm.extract_data ∧ events ≠ [] := by
                  rw [TreeMaker.getData_eq] at hgd
                  cases events with
                  | nil => exact absurd hgd (by simp)
                  | cons e es =>
                      refine ⟨?_, by simp⟩
                      simpa using hgd.symm
                obtain ⟨hdf1, hne⟩ := hdf
                subst hdf1
                exact ⟨tm, tmv, hlookup, hv, Or.inr ⟨hcheck,
                  events, d, rest, fbv, hraw, hne, hpaths, hfbv,
                  rfl, rfl, rfl, h2.symm⟩⟩

/-! The claims. -/

/-- C2: for every key whose first matching file in the ordered location list
is stale under the version checks, cache resolution returns a miss (None)
and does not consult any later configured location: the locations after the
one holding the first match (`p₂`), and the contents of any folder outside
the prefix that was searched (`store₂` only has to agree with `store` on the
folders of `p₁`), are irrelevant — even when a fresher copy exists there. -/
theorem C2_first_match_stale_is_miss (fn : String) (p₁ p₂ : List String)
    (store store₂ : Store) (d : String) (sf : StoredFile) (tmv : String)
    (policy : VersionPolicy) (paxm : Option String)
    (hfind : find_file_in_folders fn p₁ store = some (d, sf))
    (hagree : ∀ f ∈ p₁, storeLookup store₂ f = storeLookup store f)
    (hstale : checkFoundFile (joinPath d fn) sf tmv policy paxm = .ok none) :
    checkMinitreePath fn (p₁ ++ p₂) store₂ tmv policy paxm false = .ok none := by
  have h1 : find_file_in_folders fn p₁ store₂ = some (d, sf) := by
    rw [find_congr fn p₁ store store₂ hagree]
    exact hfind
  have h2 := find_append_of_found fn p₁ p₂ store₂ (d, sf) h1
  rw [checkMinitreePath]
  simp only [Bool.false_eq_true, if_false, h2]
  exact hstale

def w2sf : StoredFile := ⟨⟨"0.1", some "6.0", "u", none, "t"⟩, [[("x", 1)]]⟩

def w2fresh : StoredFile := ⟨⟨"9.9", some "6.0", "u", none, "t"⟩, [[("x", 2)]]⟩

def w2store : Store := [("a", [("r_T.root", w2sf)])]

def w2store2 : Store := [("a", [("r_T.root", w2sf)]), ("b", [("r_T.root", w2fresh)])]

theorem C2_witness :
    checkMinitreePath "r_T.root" (["a"] ++ ["b"]) w2store2 "0.2" .loose none false
      = .ok none :=
  C2_first_match_stale_is_miss "r_T.root" ["a"] ["b"] w2store w2store2 "a" w2sf
    "0.2" .loose none (by decide)
    (by
      intro f hf
      rw [List.mem_singleton] at hf
      subst hf
      decide)
    (by rfl)

/-- C3 (amended): the version-policy check never raises under the Loose and
Latest modes, and under Exact whenever the stored metadata has an
upstream (pax) version; under Exact with the `pax_version` key absent the
lookup raises KeyError instead of rejecting.  Under Latest with the current
upstream version known, absent `pax_version` is treated as the oldest
possible version: the file is rejected, not an error. -/
theorem C3_policy_never_raises_amended (p : String) (sf : StoredFile) (tmv : String)
    (policy : VersionPolicy) (paxm : Option String) :
    ((policy = .latest ∨ policy = .loose ∨
        ∃ v, policy = .exact v ∧ sf.md.pax_version ≠ none) →
      (checkFoundFile p sf tmv policy paxm).isOk = true) ∧
    (∀ fbv, looseLT sf.md.version tmv = false → sf.md.pax_version = none →
      checkFoundFile p sf tmv .latest (some fbv) = .ok none) := by
  constructor
  · intro hp
    unfold checkFoundFile
    split
    · rfl
    · rcases hp with h | h | ⟨v, h, hpax⟩
      · subst h
        cases paxm with
        | none => rfl
        | some fbv =>
            cases hx : sf.md.pax_version with
            | none => rfl
            | some pv =>
                dsimp only
                split <;> rfl
      · subst h; rfl
      · subst h
        cases hx : sf.md.pax_version with
        | none => exact absurd hx hpax
        | some pv =>
            dsimp only
            split <;> rfl
  · intro fbv hver hpax
    unfold checkFoundFile
    simp [hver, hpax]

def c3sf : StoredFile := ⟨⟨"0.1", none, "u", none, "t"⟩, []⟩

def c3store : Store := [("a", [("r_T.root", c3sf)])]

/-- C3 counterexample: under the exact policy, a found minitree whose stored
metadata lacks the `pax_version` key makes `_check_minitree_path` raise
KeyError — the claim that the check never raises is false. -/
theorem C3_counterexample :
    checkMinitreePath "r_T.root" ["a"] c3store "0.1" (.exact "6.0") (some "6.0") false
      = .error (.keyError "pax_version") := by rfl

def w3sf : StoredFile := ⟨⟨"0.1", none, "u", none, "t"⟩, []⟩

theorem C3_witness :
    (checkFoundFile "a/r.root" w3sf "0.1" .latest (some "6.0")).isOk = true ∧
    checkFoundFile "a/r.root" w3sf "0.1" .latest (some "6.0") = .ok none :=
  ⟨(C3_policy_never_raises_amended "a/r.root" w3sf "0.1" .latest (some "6.0")).1
      (Or.inl rfl),
   (C3_policy_never_raises_amended "a/r.root" w3sf "0.1" .latest (some "6.0")).2
      "6.0" (by decide) rfl⟩

/-- C6: under the Latest policy, when the current upstream version cannot be
determined (the raw file's metadata lookup raises FileNotFoundError,
modelled by `paxMeta = none`), the found minitree is accepted (with a
warning) rather than rejected, provided it passes the producer-version
freshness check. -/
theorem C6_latest_missing_pax_metadata_accepts (fn : String) (paths : List String)
    (store : Store) (d : String) (sf : StoredFile) (tmv : String)
    (hfind : find_file_in_folders fn paths store = some (d, sf))
    (hver : looseLT sf.md.version tmv = false) :
    checkMinitreePath fn paths store tmv .latest none false
      = .ok (some (joinPath d fn)) := by
  rw [checkMinitreePath]
  simp only [Bool.false_eq_true, if_false, hfind]
  unfold checkFoundFile
  simp [hver]

def w6sf : StoredFile := ⟨⟨"0.1", some "6.0", "u", none, "t"⟩, [[("x", 1)]]⟩

def w6store : Store := [("a", [("r_T.root", w6sf)])]

theorem C6_witness :
    checkMinitreePath "r_T.root" ["a"] w6store "0.1" .latest none false
      = .ok (some (joinPath "a" "r_T.root")) :=
  C6_latest_missing_pax_metadata_accepts "r_T.root" ["a"] w6store "a" w6sf "0.1"
    (by decide) (by decide)

/-- C4: a cached artifact whose stored producer version is strictly below
the treemaker's current version (dotted-numeric comparison) is a cache
miss; and whenever `get` actually rebuilt (extracted), the artifact now
stored at the head minitree folder records exactly the treemaker's current
version in its metadata. -/
theorem C4_stale_producer_version_rebuilds {Event : Type} (reg : Registry Event)
    (cfg : Config) (run : Run Event) (runName tmName fn tmv : String)
    (paths : List String) (store store₂ : Store) (d : String) (sf : StoredFile)
    (policy : VersionPolicy) (paxm : Option String) (force_reload : Bool)
    (out : GetOut) :
    ((find_file_in_folders fn paths store = some (d, sf) →
      looseLT sf.md.version tmv = true →
      checkMinitreePath fn paths store tmv policy paxm false = .ok none)) ∧
    (Hax.get reg cfg run runName tmName force_reload true store = (.ok out, store₂) →
      out.extracted = true →
      ∃ tm tmv' d' rest sf',
        lookupReg reg tmName = some tm ∧ tm.version = some tmv' ∧
        cfg.minitree_paths = d' :: rest ∧
        storeFileLookup store₂ d' (minitreeFilename runName tmName) = some sf' ∧
        sf'.md.version = tmv') := by
  constructor
  · intro hfind hstale
    rw [checkMinitreePath]
    simp only [Bool.false_eq_true, if_false, hfind]
    unfold checkFoundFile
    simp [hstale]
  · intro hget hext
    obtain ⟨tm, tmv', hlookup, hv, hcase⟩ :=
      get_ok_inv reg cfg run runName tmName force_reload store store₂ out hget
    rcases hcase with ⟨_, _, hfalse, _⟩ |
      ⟨_, events, d', rest, fbv, _, _, hpaths, _, _, _, _, hstore⟩
    · rw [hext] at hfalse
      cases hfalse
    · refine ⟨tm, tmv', d', rest,
        ⟨⟨tmv', some fbv, cfg.user_id, tm.doc, cfg.now⟩, events.map tm.extract_data⟩,
        hlookup, hv, hpaths, ?_, rfl⟩
      rw [hstore]
      exact storeFileLookup_write store d' (minitreeFilename runName tmName) _

def w4tm : TreeMaker Nat :=
  { version := some "0.2.0", extract_data := fun n => [("x", (n : Int))] }

def w4reg : Registry Nat := [("T", w4tm)]

def w4cfg : Config := ⟨.loose, ["a"], "u", "t"⟩

def w4run : Run Nat := ⟨some [5], some "6.0"⟩

def w4oldsf : StoredFile := ⟨⟨"0.1", some "6.0", "u", none, "t"⟩, [[("x", 9)]]⟩

def w4store : Store := [("a", [("r0_T.root", w4oldsf)])]

def w4newsf : StoredFile :=
  ⟨⟨"0.2.0", some "6.0", "u", none, "t"⟩, [[("x", 5)]]⟩

def w4store2 : Store := [("a", [("r0_T.root", w4newsf)])]

def w4out : GetOut := ⟨"a/r0_T.root", [[("x", 5)]], true⟩

theorem C4_witness :
    checkMinitreePath "r0_T.root" ["a"] w4store "0.2.0" .loose none false = .ok none ∧
    (∃ tm tmv' d' rest sf',
      lookupReg w4reg "T" = some tm ∧ tm.version = some tmv' ∧
      w4cfg.minitree_paths = d' :: rest ∧
      storeFileLookup w4store2 d' (minitreeFilename "r0" "T") = some sf' ∧
      sf'.md.version = tmv') :=
  ⟨(C4_stale_producer_version_rebuilds w4reg w4cfg w4run "r0" "T" "r0_T.root" "0.2.0"
      ["a"] w4store w4store2 "a" w4oldsf .loose none false w4out).1
      (by decide) (by decide),
   (C4_stale_producer_version_rebuilds w4reg w4cfg w4run "r0" "T" "r0_T.root" "0.2.0"
      ["a"] w4store w4store2 "a" w4oldsf .loose none false w4out).2
      (by rfl) rfl⟩

/-- C8: when the cache misses and the raw dataset contains no events, the
extraction yields zero rows, `get` fails with the RuntimeError raised by
`TreeMaker.get_data` (the spec's EmptyResultError), and the store is
returned unchanged: no artifact is persisted. -/
theorem C8_zero_rows_no_artifact {Event : Type} (reg : Registry Event)
    (cfg : Config) (run : Run Event) (runName tmName : String)
    (force_reload : Bool) (store : Store) (tm : TreeMaker Event) (tmv : String)
    (hlookup : lookupReg reg tmName = some tm) (hv : tm.version = some tmv)
    (hmiss : checkMinitreePath (minitreeFilename runName tmName) cfg.minitree_paths
      store tmv cfg.pax_version_policy run.paxMeta force_reload = .ok none)
    (hraw : run.rawData = some []) :
    Hax.get reg cfg run runName tmName force_reload true store =
      (.error .noEventsError, store) := by
  have hgd : TreeMaker.get_data tm ([] : List Event) = .error .noEventsError := by
    rw [TreeMaker.getData_eq]
    rfl
  unfold Hax.get
  simp only [hlookup, hv, hmiss]
  unfold buildMinitree
  simp only [hraw, hgd]

def w8tm : TreeMaker Nat :=
  { version := some "0.1", extract_data := fun n => [("x", (n : Int))] }

def w8reg : Registry Nat := [("T", w8tm)]

def w8cfg : Config := ⟨.loose, ["a"], "u", "t"⟩

def w8run : Run Nat := ⟨some [], some "6.0"⟩

theorem C8_witness :
    Hax.get w8reg w8cfg w8run "r0" "T" false true [] =
      (.error .noEventsError, []) :=
  C8_zero_rows_no_artifact w8reg w8cfg w8run "r0" "T" false [] w8tm "0.1"
    (by rfl) (by decide) (by rfl) (by decide)

/-- C9: during materialization the buffer never reaches the flush size
after any per-event step (rows are flushed into the growing table exactly
when the buffer fills, and finally at end-of-stream), and the final table
holds every extracted row exactly once, in event order; an empty stream is
the RuntimeError of `get_data`. -/
theorem C9_bounded_buffer_rows_in_order {Event : Type} (tm : TreeMaker Event)
    (events : List Event) (hpos : 0 < tm.cache_size) :
    (∀ n, ((events.take n).foldl (TreeMaker.process_event tm)
        ⟨none, []⟩).cache.length < tm.cache_size) ∧
    TreeMaker.get_data tm events =
      (if events.isEmpty then .error .noEventsError
       else .ok (events.map tm.extract_data)) := by
  refine ⟨fun n => ?_, TreeMaker.getData_eq tm events⟩
  exact TreeMaker.cache_bound_foldl tm hpos (events.take n) ⟨none, []⟩
    (by simpa using hpos)

def w9tm : TreeMaker Nat :=
  { version := some "0.1", cache_size := 2,
    extract_data := fun n => [("x", (n : Int))] }

theorem C9_witness :
    ((([1, 2, 3] : List Nat).take 2).foldl (TreeMaker.process_event w9tm)
        ⟨none, []⟩).cache.length < w9tm.cache_size ∧
    TreeMaker.get_data w9tm [1, 2, 3] =
      .ok [[("x", 1)], [("x", 2)], [("x", 3)]] := by
  have h := C9_bounded_buffer_rows_in_order w9tm [1, 2, 3] (by decide)
  refine ⟨h.1 2, ?_⟩
  rw [h.2]
  rfl

/-- C10: a cache hit makes `get` return the found path together with an
empty DataFrame (not the cached rows) and an unchanged store; consequently
a `load` whose (dataset, treemaker) artifacts are all cache hits returns a
table with no rows at all. -/
theorem C10_hits_give_empty_frames {Event : Type} (reg : Registry Event)
    (cfg : Config) (env : String → Run Event) (run : Run Event)
    (runName tmName : String) (force_reload save_root : Bool) (store : Store)
    (tm : TreeMaker Event) (tmv p : String) (datasets tms : List String) :
    ((lookupReg reg tmName = some tm → tm.version = some tmv →
      checkMinitreePath (minitreeFilename runName tmName) cfg.minitree_paths store
        tmv cfg.pax_version_policy run.paxMeta force_reload = .ok (some p) →
      Hax.get reg cfg run runName tmName force_reload save_root store =
        (.ok ⟨p, [], false⟩, store))) ∧
    (datasets ≠ [] →
      (∀ t ∈ "Fundamentals" :: tms, ∀ ds ∈ datasets, ∃ q,
        Hax.get reg cfg (env ds) ds t force_reload save_root store =
          (.ok ⟨q, [], false⟩, store)) →
      load reg cfg env datasets tms force_reload save_root store = .ok ([], store)) := by
  constructor
  · intro hlookup hv hcheck
    exact get_hit reg cfg run runName tmName force_reload save_root store tm tmv p
      hlookup hv hcheck
  · intro hne hall
    unfold load
    rw [loadTms_allHits reg cfg env force_reload save_root ("Fundamentals" :: tms)
      datasets store hne hall]
    have hcc : concatCols (([] : DataFrame) :: List.replicate tms.length []) = [] := by
      apply concatCols_of_all_nil
      intro df hdf
      rcases List.mem_cons.mp hdf with h | h
      · exact h
      · exact List.eq_of_mem_replicate h
    simp [hcc]

def w10tm : TreeMaker Nat :=
  { version := some "0.1", extract_data := fun n => [("event_time", (n : Int))] }

def w10reg : Registry Nat := [("Fundamentals", w10tm)]

def w10cfg : Config := ⟨.loose, ["a"], "u", "t"⟩

def w10env : String → Run Nat := fun _ => ⟨some [5], some "6.0"⟩

def w10sf : StoredFile := ⟨⟨"0.1", some "6.0", "u", none, "t"⟩, [[("event_time", 7)]]⟩

def w10store : Store := [("a", [("r0_Fundamentals.root", w10sf)])]

theorem C10_witness :
    Hax.get w10reg w10cfg (w10env "r0") "r0" "Fundamentals" false true w10store =
      (.ok ⟨"a/r0_Fundamentals.root", [], false⟩, w10store) ∧
    load w10reg w10cfg w10env ["r0"] [] false true w10store = .ok ([], w10store) :=
  ⟨(C10_hits_give_empty_frames w10reg w10cfg w10env (w10env "r0") "r0" "Fundamentals"
      false true w10store w10tm "0.1" "a/r0_Fundamentals.root" ["r0"] []).1
      (by rfl) (by decide) (by rfl),
   (C10_hits_give_empty_frames w10reg w10cfg w10env (w10env "r0") "r0" "Fundamentals"
      false true w10store w10tm "0.1" "a/r0_Fundamentals.root" ["r0"] []).2
      (by decide)
      (by
        intro t ht ds hds
        rw [List.mem_singleton] at ht hds
        subst ht hds
        exact ⟨"a/r0_Fundamentals.root", by rfl⟩)⟩

/-- C5 (amended): the zero-producers guard of `load` is dead code — the
baseline treemaker is always prepended, so whenever the per-treemaker loads
succeed, `load` returns their column-concatenation and never raises the
"No data was extracted" RuntimeError (the spec's NoDataError); in
particular a combined result with zero rows everywhere is returned as an
empty table, not an error. -/
theorem C5_zero_rows_returned_not_error_amended {Event : Type}
    (reg : Registry Event) (cfg : Config) (env : String → Run Event)
    (datasets tms : List String) (force_reload save_root : Bool)
    (store st : Store) (dfs : List DataFrame)
    (h : loadTms reg cfg env datasets force_reload save_root
      ("Fundamentals" :: tms) store = .ok (dfs, st)) :
    load reg cfg env datasets tms force_reload save_root store =
      .ok (concatCols dfs, st) ∧
    ((∀ df ∈ dfs, df = []) → concatCols dfs = []) := by
  constructor
  · have hlen := loadTms_length reg cfg env datasets force_reload save_root
      ("Fundamentals" :: tms) store st dfs h
    unfold load
    rw [h]
    have : dfs.length ≠ 0 := by
      rw [hlen]
      simp
    simp [this]
  · exact concatCols_of_all_nil dfs

def c5tm : TreeMaker Nat :=
  { version := some "0.1", extract_data := fun n => [("event_time", (n : Int))] }

def c5reg : Registry Nat := [("Fundamentals", c5tm)]

def c5cfg : Config := ⟨.loose, ["a"], "u", "t"⟩

def c5env : String → Run Nat := fun _ => ⟨some [5], some "6.0"⟩

def c5sf : StoredFile := ⟨⟨"0.1", some "6.0", "u", none, "t"⟩, [[("event_time", 7)]]⟩

def c5store : Store := [("a", [("r0_Fundamentals.root", c5sf)])]

/-- C5 counterexample: a load whose single requested combination is a fresh
cache hit returns successfully with a zero-row table; it does not fail with
any error, so the claim that a zero-row combined result raises NoDataError
is false on the code. -/
theorem C5_counterexample :
    load c5reg c5cfg c5env ["r0"] [] false true c5store = .ok ([], c5store) := by
  rfl

theorem C5_witness :
    load c5reg c5cfg c5env ["r0"] [] false true c5store =
      .ok (concatCols [[]], c5store) ∧
    ((∀ df ∈ [([] : DataFrame)], df = []) → concatCols [[]] = []) :=
  C5_zero_rows_returned_not_error_amended c5reg c5cfg c5env ["r0"] [] false true
    c5store c5store [[]] (by rfl)

/-- C7 (amended): `load` always prepends the baseline treemaker
"Fundamentals" to the requested list (the successful result decomposes
through `loadTms` over `"Fundamentals" :: tms`, one combined frame per
treemaker), and every column of every per-treemaker combined frame —
including the baseline's — appears in the returned table.  The baseline
columns themselves are therefore present exactly when the baseline frames
carry them, which fails on cache hits (see the counterexample). -/
theorem C7_fundamentals_prepended_amended {Event : Type} (reg : Registry Event)
    (cfg : Config) (env : String → Run Event) (datasets tms : List String)
    (force_reload save_root : Bool) (store st : Store) (df : DataFrame)
    (h : load reg cfg env datasets tms force_reload save_root store = .ok (df, st)) :
    ∃ dfs, loadTms reg cfg env datasets force_reload save_root
        ("Fundamentals" :: tms) store = .ok (dfs, st) ∧
      dfs.length = tms.length + 1 ∧ df = concatCols dfs ∧
      ∀ f ∈ dfs, ∀ k, f.hasCol k = true → df.hasCol k = true := by
  unfold load at h
  split at h
  · exact absurd h (by simp)
  · rename_i dfs st' hload
    split at h
    · exact absurd h (by simp)
    · rw [Except.ok.injEq, Prod.mk.injEq] at h
      obtain ⟨hdf, hst⟩ := h
      rw [hst] at hload
      refine ⟨dfs, hload, loadTms_length reg cfg env datasets force_reload
        save_root ("Fundamentals" :: tms) store st dfs hload, hdf.symm, ?_⟩
      intro f hf k hcol
      rw [hdf.symm]
      exact hasCol_concatCols dfs f k hf hcol

def c7tm : TreeMaker Nat :=
  { version := some "0.1", extract_data := fun n => [("event_time", (n : Int))] }

def c7reg : Registry Nat := [("Fundamentals", c7tm)]

def c7cfg : Config := ⟨.loose, ["a"], "u", "t"⟩

def c7env : String → Run Nat := fun _ => ⟨some [5], some "6.0"⟩

def c7sf : StoredFile := ⟨⟨"0.1", some "6.0", "u", none, "t"⟩, [[("event_time", 7)]]⟩

def c7store : Store := [("a", [("r0_Fundamentals.root", c7sf)])]

/-- C7 counterexample: with the baseline artifact a fresh cache hit, `load`
returns a table with no columns at all, although the Fundamentals treemaker
provides the column "event_time" (src/hax/treemakers/common.py): the claim
that the baseline columns are present in every result is false on the
code. -/
theorem C7_counterexample :
    load c7reg c7cfg c7env ["r0"] [] false true c7store = .ok ([], c7store) ∧
    DataFrame.hasCol [] "event_time" = false := ⟨by rfl, by rfl⟩

theorem C7_witness :
    ∃ dfs, loadTms c7reg c7cfg c7env ["r0"] false true ["Fundamentals"] c7store =
        .ok (dfs, c7store) ∧
      dfs.length = 0 + 1 ∧ ([] : DataFrame) = concatCols dfs ∧
      ∀ f ∈ dfs, ∀ k, f.hasCol k = true → DataFrame.hasCol [] k = true :=
  C7_fundamentals_prepended_amended c7reg c7cfg c7env ["r0"] [] false true
    c7store c7store [] (by rfl)

/-- C1 (amended): with root saving enabled (the default) and a version
policy that accepts a freshly built artifact for this run (any policy
except an exact policy demanding a pax version different from the run's
builder version), calling `get` twice with identical arguments and
`force_reload = false` invokes extraction at most once: the second call is
a cache hit — it returns the same artifact path as the first call, an empty
frame, does not extract, and leaves the store unchanged. -/
theorem C1_second_call_hits_amended {Event : Type} (reg : Registry Event)
    (cfg : Config) (run : Run Event) (runName tmName : String)
    (store store₁ store₂ : Store) (out₁ out₂ : GetOut)
    (hpol : ∀ v, cfg.pax_version_policy = .exact v → run.paxMeta = some v)
    (h1 : Hax.get reg cfg run runName tmName false true store = (.ok out₁, store₁))
    (h2 : Hax.get reg cfg run runName tmName false true store₁ = (.ok out₂, store₂)) :
    out₂.path = out₁.path ∧ out₂.extracted = false ∧ out₂.frame = [] ∧
      store₂ = store₁ := by
  obtain ⟨tm, tmv, hlookup, hv, hcase⟩ :=
    get_ok_inv reg cfg run runName tmName false store store₁ out₁ h1
  rcases hcase with ⟨hcheck, hframe, hext, hst⟩ |
    ⟨hcheck, events, d, rest, fbv, hraw, hne, hpaths, hfbv, hpath, hframe, hext, hst⟩
  · -- the first call was already a cache hit: the second call is identical
    rw [hst] at h1 h2
    rw [h1] at h2
    rw [Prod.mk.injEq, Except.ok.injEq] at h2
    obtain ⟨hout, hst2⟩ := h2
    exact ⟨by rw [← hout], by rw [← hout, hext], by rw [← hout, hframe],
      by rw [← hst2, hst]⟩
  · -- the first call rebuilt and wrote the artifact: the second call finds it
    rw [hst] at h2
    have hcheck₂ : checkMinitreePath (minitreeFilename runName tmName)
        cfg.minitree_paths
        (storeWrite store d (minitreeFilename runName tmName)
          ⟨⟨tmv, some fbv, cfg.user_id, tm.doc, cfg.now⟩, events.map tm.extract_data⟩)
        tmv cfg.pax_version_policy run.paxMeta false
        = .ok (some (joinPath d (minitreeFilename runName tmName))) := by
      rw [checkMinitreePath]
      simp only [Bool.false_eq_true, if_false]
      rw [hpaths, find_in_write]
      unfold checkFoundFile
      simp only [looseLT_irrefl, Bool.false_eq_true, if_false]
      cases hp : cfg.pax_version_policy with
      | latest =>
          rw [hfbv]
          simp [looseLT_irrefl]
      | loose => rfl
      | exact v =>
          have hv' := hpol v hp
          rw [hfbv, Option.some.injEq] at hv'
          subst hv'
          simp
    have hhit := get_hit reg cfg run runName tmName false true
      (storeWrite store d (minitreeFilename runName tmName)
        ⟨⟨tmv, some fbv, cfg.user_id, tm.doc, cfg.now⟩, events.map tm.extract_data⟩)
      tm tmv (joinPath d (minitreeFilename runName tmName)) hlookup hv hcheck₂
    rw [hhit] at h2
    rw [Prod.mk.injEq, Except.ok.injEq] at h2
    obtain ⟨hout, hst2⟩ := h2
    refine ⟨?_, by rw [← hout], by rw [← hout], by rw [← hst2, hst]⟩
    rw [← hout, hpath]

def w1tm : TreeMaker Nat :=
  { version := some "0.1", extract_data := fun n => [("x", (n : Int))] }

def w1reg : Registry Nat := [("T", w1tm)]

def w1cfg : Config := ⟨.loose, ["a"], "u", "t"⟩

def w1run : Run Nat := ⟨some [5], some "6.0"⟩

def w1sf : StoredFile := ⟨⟨"0.1", some "6.0", "u", none, "t"⟩, [[("x", 5)]]⟩

def w1store1 : Store := [("a", [("r0_T.root", w1sf)])]

def w1out1 : GetOut := ⟨"a/r0_T.root", [[("x", 5)]], true⟩

def w1out2 : GetOut := ⟨"a/r0_T.root", [], false⟩

theorem C1_witness :
    w1out2.path = w1out1.path ∧ w1out2.extracted = false ∧ w1out2.frame = [] ∧
      w1store1 = w1store1 :=
  C1_second_call_hits_amended w1reg w1cfg w1run "r0" "T" [] w1store1 w1store1
    w1out1 w1out2
    (by intro v hv; cases hv)
    (by rfl) (by rfl)

def c1tm : TreeMaker Nat :=
  { version := some "0.1", extract_data := fun n => [("x", (n : Int))] }

def c1reg : Registry Nat := [("T", c1tm)]

def c1cfg : Config := ⟨.exact "6.0", ["a"], "u", "t"⟩

def c1run : Run Nat := ⟨some [5], some "6.1"⟩

/-- C1 counterexample: under the exact policy "6.0" while the raw data was
built by pax "6.1", the artifact written by the first call never satisfies
the policy, so the second identical call extracts again: extraction runs
twice in total, refuting "at most once" as stated. -/
theorem C1_counterexample :
    (Hax.get c1reg c1cfg c1run "r0" "T" false true []).1.map GetOut.extracted
      = .ok true ∧
    (Hax.get c1reg c1cfg c1run "r0" "T" false true
        (Hax.get c1reg c1cfg c1run "r0" "T" false true []).2).1.map GetOut.extracted
      = .ok true := ⟨by rfl, by rfl⟩
